import Mathlib

/-!
Shallow embedding of the single-cell explorer's numeric and dataset-mutation
core (scatter camera transform, color mapping, percentile bounds, expression
averaging, cluster merge, lasso selection, upload normalization), translated
from the TypeScript sources.  Real-valued JavaScript arithmetic is embedded
over `ℚ`; `Math.floor`/`Math.ceil` become `Int.floor`/`Int.ceil`, and
`Math.round` (round half toward positive infinity) is `jsRound` below.
-/

namespace SCE

/-- JavaScript `Math.round`: rounds half toward positive infinity. -/
def jsRound (q : ℚ) : ℤ := ⌊q + 1 / 2⌋

/-! ## Demo cluster palette (`src/data/demoData.ts`) -/

/-- The fixed 10-entry demo cluster palette `CLUSTER_COLORS`. -/
def CLUSTER_COLORS : List (ℤ × ℤ × ℤ) :=
  [(52, 152, 165), (215, 95, 130), (210, 180, 60), (90, 165, 110),
   (165, 105, 180), (215, 130, 65), (75, 170, 155), (190, 100, 165),
   (130, 170, 85), (100, 140, 200)]

/-- Embeds `getClusterColorRGBA(clusterId, alpha)`: indexes `CLUSTER_COLORS` at
`clusterId % CLUSTER_COLORS.length` and appends `Math.floor(alpha * 255)`.
The JS array access is embedded as `List.get?`, so an out-of-bounds index
would surface as `none`. -/
def getClusterColorRGBA (clusterId : ℕ) (alpha : ℚ) : Option (ℤ × ℤ × ℤ × ℤ) :=
  (CLUSTER_COLORS.get? (clusterId % CLUSTER_COLORS.length)).map
    (fun c => (c.1, c.2.1, c.2.2, ⌊alpha * 255⌋))

/-! ## Percentile-slider update handler
(`src/components/controls/DisplayOptions.tsx`, `onValueChange`) -/

/-- The percentile range slider handler: an update `(low, high)` is stored
only when `low < high`; otherwise the current settings are left untouched. -/
def percentileUpdate (cur : ℚ × ℚ) (low high : ℚ) : ℚ × ℚ :=
  if low < high then (low, high) else cur

/-! ## Color palettes (`src/lib/colorPalettes.ts`) -/

/-- A palette stop `[position, r, g, b]`. -/
abbrev PaletteStop := ℚ × ℤ × ℤ × ℤ

abbrev PaletteStops := List PaletteStop

def VIRIDIS_STOPS : PaletteStops :=
  [(0, 68, 1, 84), (1/10, 72, 36, 117), (2/10, 65, 68, 135), (3/10, 53, 95, 141),
   (4/10, 42, 120, 142), (5/10, 33, 145, 140), (6/10, 34, 168, 132),
   (7/10, 68, 191, 112), (8/10, 122, 209, 81), (9/10, 189, 223, 38),
   (1, 253, 231, 37)]

def MAGMA_STOPS : PaletteStops :=
  [(0, 0, 0, 4), (1/10, 28, 16, 68), (2/10, 79, 18, 123), (3/10, 129, 37, 129),
   (4/10, 181, 54, 122), (5/10, 229, 80, 100), (6/10, 251, 135, 97),
   (7/10, 254, 176, 120), (8/10, 254, 209, 154), (9/10, 254, 235, 195),
   (1, 252, 253, 191)]

def PLASMA_STOPS : PaletteStops :=
  [(0, 13, 8, 135), (1/10, 75, 3, 161), (2/10, 125, 3, 168), (3/10, 168, 34, 150),
   (4/10, 203, 70, 121), (5/10, 229, 107, 93), (6/10, 248, 148, 65),
   (7/10, 253, 187, 45), (8/10, 245, 224, 32), (9/10, 225, 248, 56),
   (1, 240, 249, 33)]

def INFERNO_STOPS : PaletteStops :=
  [(0, 0, 0, 4), (1/10, 22, 11, 57), (2/10, 66, 10, 104), (3/10, 106, 23, 110),
   (4/10, 147, 38, 103), (5/10, 188, 55, 84), (6/10, 221, 81, 58),
   (7/10, 243, 120, 25), (8/10, 252, 165, 10), (9/10, 246, 215, 70),
   (1, 252, 255, 164)]

def GRRD_STOPS : PaletteStops :=
  [(0, 180, 180, 180), (1/4, 210, 210, 210), (1/2, 255, 255, 255),
   (3/4, 255, 140, 120), (1, 255, 75, 55)]

def BLUES_STOPS : PaletteStops :=
  [(0, 247, 251, 255), (1/5, 198, 219, 239), (2/5, 158, 202, 225),
   (3/5, 107, 174, 214), (4/5, 49, 130, 189), (1, 8, 81, 156)]

inductive ColorPalette where
  | viridis | magma | plasma | inferno | grrd | blues
deriving DecidableEq

def PALETTE_MAP : ColorPalette → PaletteStops
  | .viridis => VIRIDIS_STOPS
  | .magma => MAGMA_STOPS
  | .plasma => PLASMA_STOPS
  | .inferno => INFERNO_STOPS
  | .grrd => GRRD_STOPS
  | .blues => BLUES_STOPS

/-- The RGB components of a stop. -/
def rgbOf (s : PaletteStop) : ℤ × ℤ × ℤ := (s.2.1, s.2.2.1, s.2.2.2)

/-- One linear-interpolation step between two bracketing stops, with each
component rounded to an 8-bit integer (`Math.round`). -/
def interpSeg (s0 s1 : PaletteStop) (t : ℚ) : ℤ × ℤ × ℤ :=
  let lcl := (t - s0.1) / (s1.1 - s0.1)
  (jsRound ((s0.2.1 : ℚ) + ((s1.2.1 : ℚ) - (s0.2.1 : ℚ)) * lcl),
   jsRound ((s0.2.2.1 : ℚ) + ((s1.2.2.1 : ℚ) - (s0.2.2.1 : ℚ)) * lcl),
   jsRound ((s0.2.2.2 : ℚ) + ((s1.2.2.2 : ℚ) - (s0.2.2.2 : ℚ)) * lcl))

/-- The scan of `interpolateStops`' for-loop: find the first adjacent pair of
stops bracketing `t` and interpolate inside it. -/
def findSeg : PaletteStops → ℚ → Option (ℤ × ℤ × ℤ)
  | s0 :: s1 :: rest, t =>
      if s0.1 ≤ t ∧ t ≤ s1.1 then some (interpSeg s0 s1 t)
      else findSeg (s1 :: rest) t
  | _, _ => none

/-- Embeds `interpolateStops(stops, t)`: clamp to the first/last stop's color outside
`[0, 1]`, otherwise interpolate inside the bracketing segment (falling back to
the last stop, as the source does after its loop). -/
def interpolateStops (stops : PaletteStops) (t : ℚ) : ℤ × ℤ × ℤ :=
  if t ≤ 0 then rgbOf stops.headI
  else if 1 ≤ t then rgbOf (stops.getLast?.getD default)
  else
    match findSeg stops t with
    | some c => c
    | none => rgbOf (stops.getLast?.getD default)

/-- The normalization steps of `expressionToColor`: `0.5` when the bounds are
degenerate, otherwise `(value - min) / (max - min)`, clamped into `[0, 1]`. -/
def clampedNorm (value lo hi : ℚ) : ℚ :=
  let n := if hi = lo then 1 / 2 else (value - lo) / (hi - lo)
  max 0 (min 1 n)

/-- Embeds `expressionToColor(value, min, max, scale, palette)` at `scale = 1`, where
the contrast step `Math.pow(normalized, 1 / scale)` is exactly the identity
(`Math.pow(x, 1) === x` in IEEE 754); the general rational power is not
`ℚ`-representable and no claim exercises `scale ≠ 1`. -/
def expressionToColor1 (value lo hi : ℚ) (palette : ColorPalette) : ℤ × ℤ × ℤ × ℤ :=
  let rgb := interpolateStops (PALETTE_MAP palette) (clampedNorm value lo hi)
  (rgb.1, rgb.2.1, rgb.2.2, 255)

/-! ## Expression bounds with percentile clipping
(`ScatterPlot`, `expressionBounds`) -/

/-- Embeds `expressionBounds`: `(0, 1)` for an empty value set; with percentile
clipping enabled and more than 10 values, sort ascending and index at
`Math.floor(low/100 * (n-1))` and `Math.ceil(high/100 * (n-1))`; otherwise
the true min/max (the JS fold from `±Infinity` over a non-empty list equals
folding the tail from the head).  For percentiles in `[0, 100]` both indices
are in bounds, so the `getD 0` default is never consulted. -/
def expressionBounds (values : List ℚ) (useClip : Bool) (pLow pHigh : ℚ) : ℚ × ℚ :=
  if values.isEmpty then (0, 1)
  else if useClip ∧ values.length > 10 then
    let sorted := values.insertionSort (· ≤ ·)
    let lowIdx := ⌊pLow / 100 * ((values.length : ℚ) - 1)⌋
    let highIdx := ⌈pHigh / 100 * ((values.length : ℚ) - 1)⌉
    (sorted.getD lowIdx.toNat 0, sorted.getD highIdx.toNat 0)
  else
    (values.tail.foldl min (values.headD 0), values.tail.foldl max (values.headD 0))

/-! ## Camera / viewport transform (`ScatterPlot`, `dataToCanvas` /
`canvasToData`).  The component state bundles the canvas dimensions, the
(padded) data bounds and the pan/zoom transform; all of them are inputs of
the two coordinate conversions. -/

/-- Camera state: canvas `dimensions`, data `bounds` and the pan/zoom
`transform` as captured by the `ScatterPlot` component. -/
structure Camera where
  width : ℚ
  height : ℚ
  minX : ℚ
  maxX : ℚ
  minY : ℚ
  maxY : ℚ
  tx : ℚ
  ty : ℚ
  scale : ℚ

/-- Embeds `dataToCanvas(x, y)`: linear map of the data bounds into the canvas inset
(padding 50 on all sides, y-axis flipped), followed by scale-about-center and
pan. -/
def dataToCanvas (cam : Camera) (x y : ℚ) : ℚ × ℚ :=
  let padding : ℚ := 50
  let plotWidth := cam.width - padding * 2
  let plotHeight := cam.height - padding * 2
  let scaleX := plotWidth / (cam.maxX - cam.minX)
  let scaleY := plotHeight / (cam.maxY - cam.minY)
  let canvasX := padding + (x - cam.minX) * scaleX
  let canvasY := cam.height - padding - (y - cam.minY) * scaleY
  ((canvasX - cam.width / 2) * cam.scale + cam.width / 2 + cam.tx,
   (canvasY - cam.height / 2) * cam.scale + cam.height / 2 + cam.ty)

/-- Embeds `canvasToData(canvasX, canvasY)`: undoes the pan/zoom transform, then the
inset mapping.  Note that in JavaScript a zero plot width or height makes the
divisions here produce `NaN` (`0/0`); in the `ℚ` embedding they produce `0`.
Either way the round trip fails for such dimensions. -/
def canvasToData (cam : Camera) (canvasX canvasY : ℚ) : ℚ × ℚ :=
  let padding : ℚ := 50
  let plotWidth := cam.width - padding * 2
  let plotHeight := cam.height - padding * 2
  let scaleX := plotWidth / (cam.maxX - cam.minX)
  let scaleY := plotHeight / (cam.maxY - cam.minY)
  let untransformedX := (canvasX - cam.tx - cam.width / 2) / cam.scale + cam.width / 2
  let untransformedY := (canvasY - cam.ty - cam.height / 2) / cam.scale + cam.height / 2
  ((untransformedX - padding) / scaleX + cam.minX,
   cam.maxY - (untransformedY - padding) / scaleY)

/-- Composed round trip through the camera transform. -/
def cameraRoundTrip (cam : Camera) (x y : ℚ) : ℚ × ℚ :=
  canvasToData cam (dataToCanvas cam x y).1 (dataToCanvas cam x y).2

/-! ## Dataset model (`src/types/singleCell.ts`) with the tagged
string-or-number metadata values of `Record<string, string | number>`. -/

inductive MetaVal where
  | str (s : String)
  | num (q : ℚ)
deriving DecidableEq

/-- Cell metadata: an insertion-ordered key/value record. -/
abbrev Metadata := List (String × MetaVal)

/-- JS object property read `m[k]` (objects cannot hold duplicate keys, so
the first match is the binding). -/
def lookupMeta (m : Metadata) (k : String) : Option MetaVal :=
  (m.find? (fun kv => kv.1 == k)).map (fun kv => kv.2)

/-- JS object spread `{ ...m, k: v }`: overwrites the value of an existing
key in place, otherwise appends the new key at the end. -/
def setMeta (m : Metadata) (k : String) (v : MetaVal) : Metadata :=
  if m.any (fun kv => kv.1 == k) then
    m.map (fun kv => if kv.1 == k then (k, v) else kv)
  else m ++ [(k, v)]

structure Cell where
  id : String
  x : ℚ
  y : ℚ
  cluster : ℤ
  metadata : Metadata
deriving DecidableEq

structure ClusterInfo where
  id : ℤ
  name : String
  cellCount : ℤ
  color : String
deriving DecidableEq

structure DatasetMetadata where
  name : String
  description : String
  cellCount : ℤ
  geneCount : ℤ
  clusterCount : ℤ
deriving DecidableEq

structure SingleCellDataset where
  metadata : DatasetMetadata
  cells : List Cell
  genes : List String
  clusters : List ClusterInfo
deriving DecidableEq

/-! ## Cluster merge (`src/pages/Index.tsx`, `handleMergeClusters`)  -/

/-- The per-cell reassignment of `handleMergeClusters`: cells of a source
cluster move to the target and get their `cell_type` rewritten. -/
def mergeCellUpdate (sourceIds : List ℤ) (targetId : ℤ) (mergedName : String)
    (cell : Cell) : Cell :=
  if sourceIds.contains cell.cluster then
    { cell with
      cluster := targetId,
      metadata := setMeta cell.metadata "cell_type" (MetaVal.str mergedName) }
  else cell

/-- Embeds `handleMergeClusters(sourceIds, targetId, mergedName)`: reassign every
cell in a source cluster to the target (rewriting its `cell_type` metadata),
drop the source cluster entries, rename the target and recompute its
`cellCount` from the post-merge cells, and set the dataset-level
`clusterCount` to the new cluster-list length. -/
def handleMergeClusters (ds : SingleCellDataset) (sourceIds : List ℤ)
    (targetId : ℤ) (mergedName : String) : SingleCellDataset :=
  let newCells := ds.cells.map (mergeCellUpdate sourceIds targetId mergedName)
  let mergedCellCount := (newCells.filter (fun c => c.cluster == targetId)).length
  let newClusters := (ds.clusters.filter (fun c => !sourceIds.contains c.id)).map
    (fun c =>
      if c.id == targetId then
        { c with name := mergedName, cellCount := (mergedCellCount : ℤ) }
      else c)
  { ds with
    cells := newCells
    clusters := newClusters
    metadata := { ds.metadata with clusterCount := (newClusters.length : ℤ) } }

/-! ## Merge request gate
(`ClusterAnnotationTool` in `ControlPanel.tsx`, `handleMerge`) -/

/-- Embeds `handleMerge`: validates the pending merge request.  `none` models the
early-return-with-toast paths (nothing selected, or the target is one of the
sources); otherwise it yields the arguments passed to `onMergeClusters`,
with the merged name defaulting to the target cluster's name or "Merged"
when blank (JS `||` chain on strings, where the empty string is falsy). -/
def handleMerge (clusters : List ClusterInfo) (mergeSourceIds : List ℤ)
    (mergeTargetId : Option ℤ) (mergedName : String) :
    Option (List ℤ × ℤ × String) :=
  match mergeTargetId with
  | none => none
  | some t =>
    if mergeSourceIds.length = 0 then none
    else if mergeSourceIds.contains t then none
    else
      let name :=
        if mergedName.trim ≠ "" then mergedName.trim
        else
          match clusters.find? (fun c => c.id == t) with
          | some c => if c.name ≠ "" then c.name else "Merged"
          | none => "Merged"
      some (mergeSourceIds, t, name)

/-- The merge button composed with the dataset mutation: a rejected request
leaves the dataset untouched (the mutation callback is never invoked). -/
def mergeDispatch (ds : SingleCellDataset) (srcs : List ℤ) (tgt : Option ℤ)
    (name : String) : SingleCellDataset :=
  match handleMerge ds.clusters srcs tgt name with
  | none => ds
  | some reqArgs => handleMergeClusters ds reqArgs.1 reqArgs.2.1 reqArgs.2.2

/-! ## Averaged multi-gene expression
(`src/lib/expressionUtils.ts`, `getAveragedExpression`) -/

/-- A per-gene expression map `Map<cellId, value>`: an insertion-ordered
association list. -/
abbrev ExprMap := List (String × ℚ)

/-- JS `Map.get`. -/
def lookupVal (m : ExprMap) (k : String) : Option ℚ :=
  (m.find? (fun kv => kv.1 == k)).map (fun kv => kv.2)

/-- A JS `Set<string>` filled by iterating lists in order: duplicates are
dropped, first occurrences keep their position. -/
def dedupKeys (l : List String) : List String :=
  l.foldl (fun acc x => if acc.contains x then acc else acc ++ [x]) []

/-- Embeds `getAveragedExpression(dataset, genes)`.  Here `resolve` stands for
`gene ↦ getExpressionData(dataset, gene)` (whose demo-data fallback draws
random values and is not part of the deterministic fragment): the function
under test collects every cell id present in any per-gene map, and for each
accumulates the sum and count of only the values actually present, yielding
`sum / count` (or 0 for a cell with no contributing gene). -/
def getAveragedExpression (resolve : String → ExprMap) (genes : List String) :
    ExprMap :=
  if genes.length = 0 then []
  else
    let geneMaps := genes.map resolve
    let cellIds := dedupKeys (geneMaps.flatMap (fun m => m.map (fun kv => kv.1)))
    cellIds.map (fun cellId =>
      let sc := geneMaps.foldl
        (fun (acc : ℚ × ℕ) m =>
          match lookupVal m cellId with
          | some v => (acc.1 + v, acc.2 + 1)
          | none => acc)
        (0, 0)
      (cellId, if sc.2 > 0 then sc.1 / (sc.2 : ℚ) else 0))

/-- Reference definition following the spec's words: the arithmetic mean of
exactly those genes' values that are present for the cell (a gene whose map
lacks the cell contributes nothing, not zero); 0 when no gene contributes. -/
def presentMean (geneMaps : List ExprMap) (cellId : String) : ℚ :=
  let vs := geneMaps.filterMap (fun m => lookupVal m cellId)
  if vs.length > 0 then vs.sum / (vs.length : ℚ) else 0

/-! ## Lasso selection (`ScatterPlot`, `pointInPolygon` / `handleMouseUp`) -/

/-- One trip around the ray-casting loop: the edge from `pj` to `pi` toggles
the parity when it straddles the horizontal ray through `y` and the crossing
lies to the right of `x`.  The guard `(yi > y) != (yj > y)` implies
`yj ≠ yi`, so the division is never JS `0/0`. -/
def pipStep (x y : ℚ) (pi pj : ℚ × ℚ) (inside : Bool) : Bool :=
  if ((pi.2 > y) ≠ (pj.2 > y)) ∧ (x < (pj.1 - pi.1) * (y - pi.2) / (pj.2 - pi.2) + pi.1) then
    !inside
  else inside

/-- Embeds `pointInPolygon(x, y, polygon)`: ray casting, with the explicit guard
that polygons of fewer than 3 vertices contain nothing.  The source loop
runs `i` over all indices with `j` the predecessor index (wrapping to the
last vertex for `i = 0`). -/
def pointInPolygon (x y : ℚ) (polygon : List (ℚ × ℚ)) : Bool :=
  if polygon.length < 3 then false
  else
    (List.range polygon.length).foldl
      (fun inside i =>
        let pi := polygon.getD i (0, 0)
        let pj := polygon.getD (if i = 0 then polygon.length - 1 else i - 1) (0, 0)
        pipStep x y pi pj inside)
      false

/-- The lasso branch of `handleMouseUp`: walk the filtered cells, convert
each to canvas space, and collect (in filtered-cell order) the ids of cells
inside the accumulated lasso polygon — only when the polygon has more than
2 vertices. -/
def commitLasso (cam : Camera) (filteredCells : List Cell)
    (lassoPoints : List (ℚ × ℚ)) : List String :=
  filteredCells.foldl
    (fun acc cell =>
      let pos := dataToCanvas cam cell.x cell.y
      if lassoPoints.length > 2 ∧ pointInPolygon pos.1 pos.2 lassoPoints then
        acc ++ [cell.id]
      else acc)
    []

/-- The parent notification: the filtered cells whose ids were selected. -/
def lassoSelectedCells (cam : Camera) (filteredCells : List Cell)
    (lassoPoints : List (ℚ × ℚ)) : List Cell :=
  let ids := commitLasso cam filteredCells lassoPoints
  filteredCells.filter (fun c => ids.contains c.id)

/-! ## Upload normalization
(`src/components/upload/DatasetUploader.tsx`, `normalizeDataset`) -/

/-- A raw uploaded cell as read by `normalizeDataset`: `id` may be absent
(or empty, which is falsy in the `cell.id || 'cell_idx'` default), metadata
may be absent.  `x`, `y`, `cluster` are numeric after validation, so the
`Number(...)` coercions are identities. -/
structure RawCell where
  id : Option String
  x : ℚ
  y : ℚ
  cluster : ℤ
  metadata : Option Metadata
deriving DecidableEq

/-- The slice of the uploaded JSON that `normalizeDataset` reads for the
cell list and annotation options; the independently normalized fields
(genes, clusters, dataset metadata, differential expression, expression
matrix) do not interact with `annotationOptions` and are elided. -/
structure RawDataset where
  cells : List RawCell
  annotationOptions : Option (List String)
deriving DecidableEq

/-- Normalized output slice: the cell list and the annotation options. -/
structure NormalizedDataset where
  cells : List Cell
  annotationOptions : List String
deriving DecidableEq

/-- The cell-normalization map of `normalizeDataset`: default ids
`cell_<idx>` for absent/empty ids, metadata defaulted to the empty record. -/
def normalizeCells (rawCells : List RawCell) : List Cell :=
  rawCells.enum.map (fun p =>
    { id :=
        match p.2.id with
        | some s => if s = "" then "cell_" ++ toString p.1 else s
        | none => "cell_" ++ toString p.1
      x := p.2.x
      y := p.2.y
      cluster := p.2.cluster
      metadata := p.2.metadata.getD [] })

/-- The keys of the string-typed entries of a metadata record
(`Object.keys(m).filter(key => typeof m[key] === 'string')`; JS objects
cannot hold duplicate keys, so filtering entries equals filtering keys). -/
def stringKeys (m : Metadata) : List String :=
  (m.filter (fun kv =>
    match kv.2 with
    | MetaVal.str _ => true
    | MetaVal.num _ => false)).map (fun kv => kv.1)

/-- Embeds `normalizeDataset`: normalizes the cells, then *always* derives
`annotationOptions` from the string-typed metadata keys of the first
normalized cell (empty when there are no cells) — the uploaded
`annotationOptions` field is never consulted. -/
def normalizeDataset (raw : RawDataset) : NormalizedDataset :=
  let cells := normalizeCells raw.cells
  { cells := cells
    annotationOptions :=
      match cells with
      | [] => []
      | c :: _ => stringKeys c.metadata }

/-! ## Theorems -/

/-- Looking up a key just written by the object spread returns the written
value (the overwrite case rewrites the first — and in a JS object only —
binding of the key). -/
lemma lookupMeta_map_set (m : Metadata) (k : String) (v : MetaVal)
    (h : m.any (fun kv => kv.1 == k) = true) :
    lookupMeta (m.map (fun kv => if kv.1 == k then (k, v) else kv)) k = some v := by
  induction m with
  | nil => simp at h
  | cons kv rest ih =>
    rw [List.map_cons]
    by_cases hk : kv.1 == k
    · rw [if_pos hk]
      unfold lookupMeta
      simp only [List.find?_cons, beq_self_eq_true]
      rfl
    · rw [if_neg hk]
      have hkf : (kv.1 == k) = false := by simpa using hk
      unfold lookupMeta at ih ⊢
      simp only [List.find?_cons, hkf]
      apply ih
      simp only [List.any_cons, Bool.or_eq_true] at h
      rcases h with h1 | h2
      · exact absurd h1 hk
      · exact h2

/-- Reading back the written key: `lookupMeta (setMeta m k v) k = some v`, i.e. reading back the key written by
`{ ...m, k: v }`. -/
lemma setMeta_lookup (m : Metadata) (k : String) (v : MetaVal) :
    lookupMeta (setMeta m k v) k = some v := by
  unfold setMeta
  by_cases h : m.any (fun kv => kv.1 == k)
  · rw [if_pos h]
    exact lookupMeta_map_set m k v h
  · rw [if_neg h]
    unfold lookupMeta
    rw [List.find?_append]
    have hnone : m.find? (fun kv => kv.1 == k) = none := by
      rw [List.find?_eq_none]
      intro x hx hpx
      exact h (List.any_eq_true.mpr ⟨x, hx, hpx⟩)
    rw [hnone]
    simp [List.find?]

/-- Splitting a list by a boolean predicate partitions its length. -/
lemma length_filter_split (l : List ClusterInfo) (p : ClusterInfo → Bool) :
    (l.filter (fun c => !p c)).length + (l.filter p).length = l.length := by
  induction l with
  | nil => rfl
  | cons c rest ih =>
    by_cases hc : p c
    · have hc' : (!p c) = false := by simp [hc]
      rw [List.filter_cons, List.filter_cons, hc', if_neg (by simp [hc']), if_pos hc,
        List.length_cons, List.length_cons]
      omega
    · have hc' : p c = false := by simpa using hc
      rw [List.filter_cons, List.filter_cons, if_pos (by simp [hc']), if_neg hc,
        List.length_cons, List.length_cons]
      omega

/-- Filtering on a property of the mapped value commutes with the map. -/
lemma filter_contains_map_comm (l : List ClusterInfo) (p : ℤ → Bool) :
    (l.map (fun c => c.id)).filter p = (l.filter (fun c => p c.id)).map (fun c => c.id) := by
  induction l with
  | nil => rfl
  | cons c rest ih =>
    by_cases hc : p c.id
    · rw [List.map_cons, List.filter_cons, List.filter_cons, if_pos hc, if_pos hc,
        List.map_cons, ih]
    · rw [List.map_cons, List.filter_cons, List.filter_cons, if_neg hc, if_neg hc, ih]

/-- Removing from a duplicate-free cluster list exactly the entries whose id
lies in a duplicate-free list of present ids shortens it by the number of
those ids. -/
lemma length_filter_not_contains (clusters : List ClusterInfo) (sourceIds : List ℤ)
    (hnd : (clusters.map (fun c => c.id)).Nodup) (hsd : sourceIds.Nodup)
    (hsub : ∀ s ∈ sourceIds, s ∈ clusters.map (fun c => c.id)) :
    (clusters.filter (fun c => !sourceIds.contains c.id)).length + sourceIds.length
      = clusters.length := by
  classical
  have hsplit := length_filter_split clusters (fun c => sourceIds.contains c.id)
  have hmapfilter := filter_contains_map_comm clusters (fun i => sourceIds.contains i)
  have hperm : ((clusters.map (fun c => c.id)).filter (fun i => sourceIds.contains i)).Perm
      sourceIds := by
    apply List.perm_of_nodup_nodup_toFinset_eq
    · exact hnd.filter _
    · exact hsd
    · ext x
      simp only [List.mem_toFinset, List.mem_filter]
      constructor
      · rintro ⟨-, hx⟩
        simpa using hx
      · intro hx
        exact ⟨hsub x hx, by simpa using hx⟩
  have hlen2 : (clusters.filter (fun c => sourceIds.contains c.id)).length
      = sourceIds.length := by
    have h1 : ((clusters.filter (fun c => sourceIds.contains c.id)).map
        (fun c => c.id)).length
        = (clusters.filter (fun c => sourceIds.contains c.id)).length :=
      List.length_map _ _
    rw [← h1, ← hmapfilter]
    exact hperm.length_eq
  omega

/-- The placeholder cell used for safe indexed access in statements. -/
def defaultCell : Cell := Cell.mk "" 0 0 0 []

/-- C2: for a well-formed dataset (duplicate-free cluster ids, dataset-level
`clusterCount` equal to the cluster-list length) and a valid merge request —
distinct source ids all present in the cluster list, target outside them —
the merge keeps the total number of cells, shrinks the cluster list and the
dataset-level `clusterCount` by exactly the number of source ids, and every
cell formerly in a source cluster ends with `cluster = targetId` and
`cell_type` metadata equal to the merged name. -/
theorem c2_merge_invariant (ds : SingleCellDataset) (sourceIds : List ℤ)
    (targetId : ℤ) (mergedName : String)
    (hnd : (ds.clusters.map (fun c => c.id)).Nodup)
    (hsd : sourceIds.Nodup)
    (hsub : ∀ s ∈ sourceIds, s ∈ ds.clusters.map (fun c => c.id))
    (ht : targetId ∉ sourceIds)
    (hcc : ds.metadata.clusterCount = (ds.clusters.length : ℤ)) :
    (handleMergeClusters ds sourceIds targetId mergedName).cells.length
      = ds.cells.length ∧
    (handleMergeClusters ds sourceIds targetId mergedName).clusters.length
      + sourceIds.length = ds.clusters.length ∧
    (handleMergeClusters ds sourceIds targetId mergedName).metadata.clusterCount
      = ds.metadata.clusterCount - (sourceIds.length : ℤ) ∧
    ∀ i, i < ds.cells.length → (ds.cells.getD i defaultCell).cluster ∈ sourceIds →
      ((handleMergeClusters ds sourceIds targetId mergedName).cells.getD i defaultCell).cluster
        = targetId ∧
      lookupMeta
        ((handleMergeClusters ds sourceIds targetId mergedName).cells.getD i defaultCell).metadata
        "cell_type" = some (MetaVal.str mergedName) := by
  have hcells : (handleMergeClusters ds sourceIds targetId mergedName).cells
      = ds.cells.map (mergeCellUpdate sourceIds targetId mergedName) := rfl
  have hcluslen : (handleMergeClusters ds sourceIds targetId mergedName).clusters.length
      = (ds.clusters.filter (fun c => !sourceIds.contains c.id)).length :=
    List.length_map _ _
  have hflen := length_filter_not_contains ds.clusters sourceIds hnd hsd hsub
  have hmeta : (handleMergeClusters ds sourceIds targetId mergedName).metadata.clusterCount
      = ((handleMergeClusters ds sourceIds targetId mergedName).clusters.length : ℤ) := rfl
  refine ⟨?_, ?_, ?_, ?_⟩
  · rw [hcells, List.length_map]
  · rw [hcluslen]
    exact hflen
  · rw [hmeta, hcc, hcluslen]
    omega
  · intro i hi hmem
    have hgd : (handleMergeClusters ds sourceIds targetId mergedName).cells.getD i defaultCell
        = mergeCellUpdate sourceIds targetId mergedName (ds.cells.getD i defaultCell) := by
      simp only [hcells, List.getD_eq_getElem?_getD, List.getElem?_map,
        List.getElem?_eq_getElem hi]
      rfl
    rw [hgd]
    unfold mergeCellUpdate
    have hcont : sourceIds.contains (ds.cells.getD i defaultCell).cluster = true := by
      simpa using hmem
    rw [if_pos hcont]
    exact ⟨rfl, setMeta_lookup _ _ _⟩

/-- A concrete three-cluster dataset for the merge witness. -/
def mergeDemoDataset : SingleCellDataset :=
  SingleCellDataset.mk (DatasetMetadata.mk "demo" "" 3 0 3)
    [Cell.mk "c0" 0 0 0 [("cell_type", MetaVal.str "A")],
     Cell.mk "c1" 1 0 1 [("cell_type", MetaVal.str "B")],
     Cell.mk "c2" 0 1 2 [("cell_type", MetaVal.str "C")]]
    []
    [ClusterInfo.mk 0 "A" 1 "r", ClusterInfo.mk 1 "B" 1 "g", ClusterInfo.mk 2 "C" 1 "b"]

/-- Witness for C2: merging cluster 0 into cluster 1 under the name "M" on
the concrete dataset. -/
theorem c2_merge_invariant_witness :
    (handleMergeClusters mergeDemoDataset [0] 1 "M").cells.length
      = mergeDemoDataset.cells.length ∧
    (handleMergeClusters mergeDemoDataset [0] 1 "M").clusters.length
      + [(0 : ℤ)].length = mergeDemoDataset.clusters.length ∧
    (handleMergeClusters mergeDemoDataset [0] 1 "M").metadata.clusterCount
      = mergeDemoDataset.metadata.clusterCount - ([(0 : ℤ)].length : ℤ) ∧
    ∀ i, i < mergeDemoDataset.cells.length →
      (mergeDemoDataset.cells.getD i defaultCell).cluster ∈ [(0 : ℤ)] →
      ((handleMergeClusters mergeDemoDataset [0] 1 "M").cells.getD i defaultCell).cluster = 1 ∧
      lookupMeta
        ((handleMergeClusters mergeDemoDataset [0] 1 "M").cells.getD i defaultCell).metadata
        "cell_type" = some (MetaVal.str "M") :=
  c2_merge_invariant mergeDemoDataset [0] 1 "M"
    (by decide) (by decide) (by decide) (by decide) (by decide)

/-- Membership in the insertion-ordered dedup equals membership in the input
list. -/
lemma mem_dedupKeys (l : List String) (x : String) : x ∈ dedupKeys l ↔ x ∈ l := by
  have hgen : ∀ (l : List String) (acc : List String),
      x ∈ l.foldl (fun acc x => if acc.contains x then acc else acc ++ [x]) acc
        ↔ x ∈ acc ∨ x ∈ l := by
    intro l
    induction l with
    | nil => intro acc; simp
    | cons a rest ih =>
      intro acc
      rw [List.foldl_cons, ih]
      by_cases ha : acc.contains a
      · rw [if_pos ha]
        have hmem : a ∈ acc := by simpa using ha
        constructor
        · rintro (h1 | h2)
          · exact Or.inl h1
          · exact Or.inr (List.mem_cons_of_mem a h2)
        · rintro (h1 | h2)
          · exact Or.inl h1
          · rcases List.mem_cons.mp h2 with h3 | h4
            · exact Or.inl (h3 ▸ hmem)
            · exact Or.inr h4
      · rw [if_neg ha]
        constructor
        · rintro (h1 | h2)
          · rcases List.mem_append.mp h1 with h3 | h4
            · exact Or.inl h3
            · exact Or.inr (List.mem_cons.mpr (Or.inl (List.mem_singleton.mp h4)))
          · exact Or.inr (List.mem_cons_of_mem a h2)
        · rintro (h1 | h2)
          · exact Or.inl (List.mem_append.mpr (Or.inl h1))
          · rcases List.mem_cons.mp h2 with h3 | h4
            · exact Or.inl (List.mem_append.mpr (Or.inr (List.mem_singleton.mpr h3)))
            · exact Or.inr h4
  unfold dedupKeys
  rw [hgen]
  simp

/-- Looking up a key in a keyed map over a list of ids yields the mapped
value at that key, whenever the key occurs among the ids. -/
lemma lookup_map_pair (ids : List String) (f : String → ℚ) (x : String)
    (h : x ∈ ids) :
    lookupVal (ids.map (fun c => (c, f c))) x = some (f x) := by
  induction ids with
  | nil => cases h
  | cons a rest ih =>
    rw [List.map_cons]
    by_cases hax : a == x
    · have hax' : a = x := by simpa using hax
      subst hax'
      unfold lookupVal
      simp only [List.find?_cons, beq_self_eq_true]
      rfl
    · have haxf : (a == x) = false := by simpa using hax
      unfold lookupVal at ih ⊢
      simp only [List.find?_cons, haxf]
      apply ih
      rcases List.mem_cons.mp h with h1 | h2
      · exfalso
        apply hax
        rw [h1]
        exact beq_self_eq_true a
      · exact h2

/-- The sum/count fold of `getAveragedExpression` accumulates exactly the
values present for the cell across the gene maps. -/
lemma foldl_sum_count (cellId : String) (maps : List ExprMap) :
    ∀ acc : ℚ × ℕ,
      maps.foldl
        (fun (acc : ℚ × ℕ) m =>
          match lookupVal m cellId with
          | some v => (acc.1 + v, acc.2 + 1)
          | none => acc)
        acc
      = (acc.1 + (maps.filterMap (fun m => lookupVal m cellId)).sum,
         acc.2 + (maps.filterMap (fun m => lookupVal m cellId)).length) := by
  induction maps with
  | nil => intro acc; simp
  | cons m rest ih =>
    intro acc
    rw [List.foldl_cons]
    cases hm : lookupVal m cellId with
    | none =>
      simp only [hm, List.filterMap_cons, ih]
    | some v =>
      simp only [hm, List.filterMap_cons, ih, List.sum_cons, List.length_cons,
        Prod.mk.injEq]
      exact ⟨by ring, by omega⟩

/-- C4: for every resolver and gene list, each cell id present in at least
one per-gene map is assigned the arithmetic mean of only those genes' values
that are present for it — a gene whose map lacks the cell contributes
nothing, not zero (`presentMean` is the spec-side mean over the values
actually present). -/
theorem c4_averaged_missing_gene_excluded (resolve : String → ExprMap)
    (genes : List String) (cellId : String)
    (hmem : cellId ∈ (genes.map resolve).flatMap (fun m => m.map (fun kv => kv.1))) :
    lookupVal (getAveragedExpression resolve genes) cellId
      = some (presentMean (genes.map resolve) cellId) := by
  have hgenes : ¬ genes.length = 0 := by
    intro h0
    rw [List.length_eq_zero] at h0
    subst h0
    simp at hmem
  unfold getAveragedExpression
  rw [if_neg hgenes]
  have hid : cellId ∈ dedupKeys
      ((genes.map resolve).flatMap (fun m => m.map (fun kv => kv.1))) :=
    (mem_dedupKeys _ _).mpr hmem
  rw [lookup_map_pair _ _ _ hid]
  congr 1
  simp only [foldl_sum_count, zero_add]
  rfl

/-- Witness for C4: gene A maps `"c1" ↦ 2.0`, gene B has no entry for
`"c1"`; the average over [A, B] at `"c1"` is 2.0, not 1.0. -/
theorem c4_averaged_missing_gene_excluded_witness :
    lookupVal (getAveragedExpression
        (fun g => if g = "A" then [("c1", (2 : ℚ))] else []) ["A", "B"]) "c1"
      = some 2 ∧ (2 : ℚ) ≠ 1 := by
  have hmem : "c1" ∈ ((["A", "B"].map
      (fun g => if g = "A" then [("c1", (2 : ℚ))] else [])).flatMap
        (fun m => m.map (fun kv => kv.1))) := by
    simp
  have h := c4_averaged_missing_gene_excluded
    (fun g => if g = "A" then [("c1", (2 : ℚ))] else []) ["A", "B"] "c1" hmem
  rw [h]
  have hmaps : ["A", "B"].map (fun g => if g = "A" then [("c1", (2 : ℚ))] else [])
      = [[("c1", (2 : ℚ))], []] := by
    simp
  have hl1 : lookupVal [("c1", (2 : ℚ))] "c1" = some 2 := by
    unfold lookupVal
    simp only [List.find?_cons, beq_self_eq_true]
    rfl
  have hl2 : lookupVal ([] : ExprMap) "c1" = none := rfl
  have hpm : presentMean [[("c1", (2 : ℚ))], []] "c1" = 2 := by
    unfold presentMean
    simp only [List.filterMap_cons, hl1, hl2, List.filterMap_nil]
    norm_num
  rw [hmaps, hpm]
  exact ⟨rfl, by norm_num⟩

/-- C6: whenever the pending merge target is one of the selected source
clusters, the request gate returns `none` (the user sees the error toast and
`onMergeClusters` is never invoked), so the composed dispatch leaves the
dataset — cells, cluster list and metadata — completely unchanged. -/
theorem c6_merge_rejected_target_in_sources (ds : SingleCellDataset)
    (srcs : List ℤ) (t : ℤ) (name : String) (ht : t ∈ srcs) :
    handleMerge ds.clusters srcs (some t) name = none ∧
    mergeDispatch ds srcs (some t) name = ds := by
  have hc : srcs.contains t = true := by simpa using ht
  have hlen : ¬ srcs.length = 0 := by
    intro h0
    rw [List.length_eq_zero] at h0
    subst h0
    cases ht
  have hm : handleMerge ds.clusters srcs (some t) name = none := by
    simp only [handleMerge]
    rw [if_neg hlen, if_pos hc]
  refine ⟨hm, ?_⟩
  unfold mergeDispatch
  rw [hm]

/-- Witness for C6: a two-cluster dataset, merging sources {1, 2} into
target 2 (inside the source set) is rejected and mutates nothing. -/
theorem c6_merge_rejected_witness :
    (2 : ℤ) ∈ [(1 : ℤ), 2] ∧
    handleMerge
      (SingleCellDataset.mk (DatasetMetadata.mk "d" "" 1 0 2)
        [Cell.mk "c0" 0 0 1 []] [] [ClusterInfo.mk 1 "A" 1 "r", ClusterInfo.mk 2 "B" 0 "r"]).clusters
      [1, 2] (some 2) "M" = none ∧
    mergeDispatch
      (SingleCellDataset.mk (DatasetMetadata.mk "d" "" 1 0 2)
        [Cell.mk "c0" 0 0 1 []] [] [ClusterInfo.mk 1 "A" 1 "r", ClusterInfo.mk 2 "B" 0 "r"])
      [1, 2] (some 2) "M" =
      SingleCellDataset.mk (DatasetMetadata.mk "d" "" 1 0 2)
        [Cell.mk "c0" 0 0 1 []] [] [ClusterInfo.mk 1 "A" 1 "r", ClusterInfo.mk 2 "B" 0 "r"] := by
  have hmem : (2 : ℤ) ∈ [(1 : ℤ), 2] := by norm_num
  have h := c6_merge_rejected_target_in_sources
    (SingleCellDataset.mk (DatasetMetadata.mk "d" "" 1 0 2)
      [Cell.mk "c0" 0 0 1 []] [] [ClusterInfo.mk 1 "A" 1 "r", ClusterInfo.mk 2 "B" 0 "r"])
    [1, 2] 2 "M" hmem
  exact ⟨hmem, h.1, h.2⟩

/-- The lasso fold never selects anything when the polygon has at most two
vertices. -/
lemma commitLasso_short (cam : Camera) (cells : List Cell)
    (pts : List (ℚ × ℚ)) (h : ¬ pts.length > 2) :
    commitLasso cam cells pts = [] := by
  unfold commitLasso
  have hgen : ∀ (cs : List Cell) (acc : List String),
      cs.foldl
        (fun acc cell =>
          let pos := dataToCanvas cam cell.x cell.y
          if pts.length > 2 ∧ pointInPolygon pos.1 pos.2 pts then acc ++ [cell.id]
          else acc) acc = acc := by
    intro cs
    induction cs with
    | nil => intro acc; rfl
    | cons c rest ih =>
      intro acc
      rw [List.foldl_cons]
      simp only
      rw [if_neg (fun hab => h hab.1)]
      exact ih acc
  exact hgen cells []

/-- C8: a degenerate lasso gesture (fewer than 3 accumulated vertices)
commits an empty selection — no cell id is collected, the parent is notified
with the empty cell list — and the ray-casting membership test itself
returns `false` for every point over such a polygon (its `< 3` guard), so
nothing can fail on the division-free path. -/
theorem c8_degenerate_lasso_empty (cam : Camera) (filteredCells : List Cell)
    (pts : List (ℚ × ℚ)) (h : pts.length < 3) :
    commitLasso cam filteredCells pts = [] ∧
    lassoSelectedCells cam filteredCells pts = [] ∧
    ∀ x y : ℚ, pointInPolygon x y pts = false := by
  have h2 : ¬ pts.length > 2 := by omega
  have hc : commitLasso cam filteredCells pts = [] := commitLasso_short cam filteredCells pts h2
  refine ⟨hc, ?_, ?_⟩
  · unfold lassoSelectedCells
    rw [hc]
    simp [List.contains]
  · intro x y
    unfold pointInPolygon
    rw [if_pos h]

/-- Witness for C8: a 2-point lasso over a one-cell dataset selects nothing. -/
theorem c8_degenerate_lasso_witness :
    commitLasso (Camera.mk 600 500 0 1 0 1 0 0 1) [Cell.mk "c0" 0 0 0 []]
        [(0, 0), (1, 1)] = [] ∧
    lassoSelectedCells (Camera.mk 600 500 0 1 0 1 0 0 1) [Cell.mk "c0" 0 0 0 []]
        [(0, 0), (1, 1)] = [] ∧
    ∀ x y : ℚ, pointInPolygon x y [(0, 0), (1, 1)] = false :=
  c8_degenerate_lasso_empty (Camera.mk 600 500 0 1 0 1 0 0 1)
    [Cell.mk "c0" 0 0 0 []] [(0, 0), (1, 1)] (by norm_num)

/-- C9 (counterexample): an accepted dataset that explicitly provides
`annotationOptions = ["batch"]` does not keep it: normalization overwrites
it with the string-typed metadata keys of the first cell (here
`["sample"]`). -/
theorem c9_annotation_options_counterexample :
    (RawDataset.mk
      [RawCell.mk (some "c1") 0 0 0
        (some [("sample", MetaVal.str "S1"), ("n", MetaVal.num 3)])]
      (some ["batch"])).annotationOptions = some ["batch"] ∧
    (normalizeDataset (RawDataset.mk
      [RawCell.mk (some "c1") 0 0 0
        (some [("sample", MetaVal.str "S1"), ("n", MetaVal.num 3)])]
      (some ["batch"]))).annotationOptions = ["sample"] ∧
    (["sample"] : List String) ≠ ["batch"] := by
  refine ⟨rfl, ?_, by decide⟩
  rfl

/-- C9 (amended): `normalizeDataset` always derives `annotationOptions` from
the string-typed metadata keys of the first cell (empty when there are no
cells) and ignores an explicitly provided `annotationOptions` array — its
output does not depend on that field at all. -/
theorem c9_annotation_options_amended (raw : RawDataset)
    (opts1 opts2 : Option (List String)) :
    normalizeDataset { raw with annotationOptions := opts1 } =
      normalizeDataset { raw with annotationOptions := opts2 } ∧
    (normalizeDataset raw).annotationOptions =
      (match raw.cells with
       | [] => []
       | rc :: _ => stringKeys (rc.metadata.getD [])) := by
  constructor
  · rfl
  · cases hc : raw.cells with
    | nil => simp [normalizeDataset, normalizeCells, hc]
    | cons rc rest => simp [normalizeDataset, normalizeCells, hc, List.enum_cons]

/-- C1 (counterexample): the claim admits any positive canvas dimensions, but
at width 100 the plot width is `100 - 2 * 50 = 0`, so `scaleX = 0` and the
round trip collapses every x-coordinate (in JavaScript the inverse divides
`0 / 0 = NaN`).  The camera below has positive dimensions, non-degenerate
bounds, scale 1 ∈ [1/2, 10] and zero pan, yet the round trip of the data
point (1, 0) returns x = 0, off by 1 > 1e-6. -/
theorem c1_roundtrip_fails_at_width100 :
    ((0 : ℚ) < (Camera.mk 100 300 0 1 0 1 0 0 1).width ∧
      (0 : ℚ) < (Camera.mk 100 300 0 1 0 1 0 0 1).height ∧
      (Camera.mk 100 300 0 1 0 1 0 0 1).minX < (Camera.mk 100 300 0 1 0 1 0 0 1).maxX ∧
      (Camera.mk 100 300 0 1 0 1 0 0 1).minY < (Camera.mk 100 300 0 1 0 1 0 0 1).maxY ∧
      (1 / 2 : ℚ) ≤ (Camera.mk 100 300 0 1 0 1 0 0 1).scale ∧
      (Camera.mk 100 300 0 1 0 1 0 0 1).scale ≤ 10) ∧
    cameraRoundTrip (Camera.mk 100 300 0 1 0 1 0 0 1) 1 0 = (0, 0) ∧
    ¬ (|(cameraRoundTrip (Camera.mk 100 300 0 1 0 1 0 0 1) 1 0).1 - 1| ≤ 1 / 1000000) := by
  refine ⟨⟨by norm_num, by norm_num, by norm_num, by norm_num, by norm_num, by norm_num⟩, ?_, ?_⟩
  · norm_num [cameraRoundTrip, canvasToData, dataToCanvas]
  · norm_num [cameraRoundTrip, canvasToData, dataToCanvas]

/-- C1 (amended): the round trip `canvasToData ∘ dataToCanvas` is the exact
identity — hence within the 1e-6 tolerance — for every camera state whose
canvas dimensions exceed 100 (twice the fixed 50px padding; "positive" alone
is not enough, see the counterexample), whose data bounds have non-zero x and
y ranges, whose scale lies in [1/2, 10], and for any pan offset. -/
theorem c1_camera_roundtrip_amended (cam : Camera) (hw : 100 < cam.width)
    (hh : 100 < cam.height) (hx : cam.minX < cam.maxX) (hy : cam.minY < cam.maxY)
    (hs : 1 / 2 ≤ cam.scale) (hs10 : cam.scale ≤ 10) (x y : ℚ) :
    cameraRoundTrip cam x y = (x, y) := by
  have hxr : cam.maxX - cam.minX ≠ 0 := sub_ne_zero_of_ne (ne_of_gt hx)
  have hyr : cam.maxY - cam.minY ≠ 0 := sub_ne_zero_of_ne (ne_of_gt hy)
  have hwp : cam.width - 50 * 2 ≠ 0 := by intro h; nlinarith [hw]
  have hhp : cam.height - 50 * 2 ≠ 0 := by intro h; nlinarith [hh]
  have hsc : cam.scale ≠ 0 := by positivity
  unfold cameraRoundTrip canvasToData dataToCanvas
  simp only
  refine Prod.ext ?_ ?_
  · field_simp
    ring
  · field_simp
    ring

/-- Witness for C1 (amended) at a concrete camera: 600×500 canvas, bounds
[0,10]×[0,20], pan (3,-4), scale 2, data point (7, 11). -/
theorem c1_camera_roundtrip_witness :
    cameraRoundTrip (Camera.mk 600 500 0 10 0 20 3 (-4) 2) 7 11 = (7, 11) :=
  c1_camera_roundtrip_amended (Camera.mk 600 500 0 10 0 20 3 (-4) 2)
    (by norm_num) (by norm_num) (by norm_num) (by norm_num) (by norm_num) (by norm_num) 7 11

/-- With percentile bounds 5/95 and any sorted 100-element value list, the
clipping branch of `expressionBounds` indexes the sorted list at
`⌊0.05 ⬝ 99⌋ = 4` and `⌈0.95 ⬝ 99⌉ = 95`. -/
lemma expressionBounds_sorted100 (L : List ℚ) (hlen : L.length = 100)
    (hs : List.Sorted (· ≤ ·) L) (hne : L.isEmpty = false) :
    expressionBounds L true 5 95 = (L.getD 4 0, L.getD 95 0) := by
  unfold expressionBounds
  simp only [hne, hlen, hs.insertionSort_eq, Bool.false_eq_true, if_false]
  rw [if_pos (show True ∧ (100 : ℕ) > 10 by norm_num)]
  have h1 : (⌊(5 : ℚ) / 100 * (((100 : ℕ) : ℚ) - 1)⌋).toNat = 4 := by
    have h : ⌊(5 : ℚ) / 100 * (((100 : ℕ) : ℚ) - 1)⌋ = 4 := by
      push_cast
      norm_num [Int.floor_eq_iff]
    rw [h]
    rfl
  have h2 : (⌈(95 : ℚ) / 100 * (((100 : ℕ) : ℚ) - 1)⌉).toNat = 95 := by
    have h : ⌈(95 : ℚ) / 100 * (((100 : ℕ) : ℚ) - 1)⌉ = 95 := by
      push_cast
      norm_num [Int.ceil_eq_iff]
    rw [h]
    rfl
  rw [h1, h2]

/-- The expression value multiset {0, 1, ..., 99} of the percentile-clipping
scenario. -/
lemma expressionBounds_range100 :
    expressionBounds (List.map (fun n : ℕ => (n : ℚ)) (List.range 100)) true 5 95 = (4, 95) := by
  have hlen : (List.map (fun n : ℕ => (n : ℚ)) (List.range 100)).length = 100 := by
    rw [List.length_map, List.length_range]
  have hsorted : List.Sorted (· ≤ ·) (List.map (fun n : ℕ => (n : ℚ)) (List.range 100)) :=
    List.Pairwise.map _ (fun _ _ h => Nat.cast_le.mpr h) (List.sorted_le_range 100)
  have hempty : (List.map (fun n : ℕ => (n : ℚ)) (List.range 100)).isEmpty = false := by
    rw [List.isEmpty_eq_false_iff_exists_mem]
    exact ⟨0, by
      rw [List.mem_map]
      exact ⟨0, by rw [List.mem_range]; norm_num, by norm_num⟩⟩
  rw [expressionBounds_sorted100 _ hlen hsorted hempty]
  have g4 : (List.map (fun n : ℕ => (n : ℚ)) (List.range 100)).getD 4 0 = 4 := by
    rw [List.getD_eq_getElem?_getD, List.getElem?_map,
      List.getElem?_range (by norm_num : (4 : ℕ) < 100)]
    rfl
  have g95 : (List.map (fun n : ℕ => (n : ℚ)) (List.range 100)).getD 95 0 = 95 := by
    rw [List.getD_eq_getElem?_getD, List.getElem?_map,
      List.getElem?_range (by norm_num : (95 : ℕ) < 100)]
    rfl
  rw [g4, g95]

/-- C3 (counterexample): for the value multiset {0, ..., 99} with percentile
clipping at low = 5, high = 95, the code computes indices
`Math.floor(0.05 ⬝ 99) = 4` and `Math.ceil(0.95 ⬝ 99) = 95`, so the bounds are
(4, 95) — not the (5, 94) the claim asserts. -/
theorem c3_percentile_scenario_counterexample :
    expressionBounds (List.map (fun n : ℕ => (n : ℚ)) (List.range 100)) true 5 95 ≠ (5, 94) := by
  rw [expressionBounds_range100]
  intro h
  have := congrArg Prod.fst h
  norm_num at this

/-- C3 (amended): with percentile clipping enabled, for the expression value
multiset {0, 1, ..., 99} and percentile bounds low = 5, high = 95, the
computed color-mapping bounds equal (4, 95): min at index
`floor(low% ⬝ (n-1)) = 4` and max at index `ceil(high% ⬝ (n-1)) = 95` of the
sorted values. -/
theorem c3_percentile_scenario_amended :
    expressionBounds (List.map (fun n : ℕ => (n : ℚ)) (List.range 100)) true 5 95 = (4, 95) :=
  expressionBounds_range100

/-- C7 (counterexample): with bounds `min = 0 < max = 1000`, `scale = 1` and
the viridis palette, the values `v1 = 1/10 < v2 = 2/10` both normalize
strictly inside `(0, 1)` (no clamping on either side), yet map to the
identical RGB color `(68, 1, 84)`: the 8-bit `Math.round` quantization can
merge nearby values, so strict color distinctness fails. -/
theorem c7_color_monotonicity_counterexample :
    (0 : ℚ) < 1000 ∧ (1 / 10 : ℚ) < 2 / 10 ∧
    (0 : ℚ) < (1 / 10 - 0) / (1000 - 0) ∧ ((1 / 10 : ℚ) - 0) / (1000 - 0) < 1 ∧
    (0 : ℚ) < (2 / 10 - 0) / (1000 - 0) ∧ ((2 / 10 : ℚ) - 0) / (1000 - 0) < 1 ∧
    expressionToColor1 (1 / 10) 0 1000 ColorPalette.viridis =
      expressionToColor1 (2 / 10) 0 1000 ColorPalette.viridis := by
  refine ⟨by norm_num, by norm_num, by norm_num, by norm_num, by norm_num, by norm_num, ?_⟩
  have e1 : expressionToColor1 (1 / 10) 0 1000 ColorPalette.viridis = (68, 1, 84, 255) := by
    norm_num [expressionToColor1, clampedNorm, min_def, max_def, interpolateStops,
      PALETTE_MAP, VIRIDIS_STOPS, findSeg, interpSeg, jsRound, rgbOf,
      Prod.ext_iff, Int.floor_eq_iff]
  have e2 : expressionToColor1 (2 / 10) 0 1000 ColorPalette.viridis = (68, 1, 84, 255) := by
    norm_num [expressionToColor1, clampedNorm, min_def, max_def, interpolateStops,
      PALETTE_MAP, VIRIDIS_STOPS, findSeg, interpSeg, jsRound, rgbOf,
      Prod.ext_iff, Int.floor_eq_iff]
  rw [e1, e2]

/-- C7 (amended): distinct values may map to identical RGB colors even inside
`(0, 1)` because interpolated components are rounded to 8-bit integers (see
the counterexample); what does hold for `min < max` and `scale = 1` is strict
monotonicity one level down: the clamped normalized parameter fed to the
palette interpolation by `expressionToColor1` is strictly increasing in the
value, unless both values clamp onto a common side (the larger one normalizes
`≤ 0`, or the smaller one normalizes `≥ 1`). -/
theorem c7_normalized_monotone_amended (lo hi v1 v2 : ℚ) (hlh : lo < hi)
    (h12 : v1 < v2) (hnot0 : 0 < (v2 - lo) / (hi - lo))
    (hnot1 : (v1 - lo) / (hi - lo) < 1) :
    clampedNorm v1 lo hi < clampedNorm v2 lo hi := by
  have hne : hi ≠ lo := ne_of_gt hlh
  have hpos : 0 < hi - lo := by linarith
  have hn12 : (v1 - lo) / (hi - lo) < (v2 - lo) / (hi - lo) :=
    (div_lt_div_iff_of_pos_right hpos).mpr (by linarith)
  unfold clampedNorm
  simp only [if_neg hne]
  rcases le_or_lt ((v2 - lo) / (hi - lo)) 1 with h2le | h2gt
  · rw [min_eq_right (le_of_lt hnot1), min_eq_right h2le,
      max_eq_right (le_of_lt hnot0)]
    exact max_lt hnot0 hn12
  · rw [min_eq_right (le_of_lt hnot1), min_eq_left (le_of_lt h2gt)]
    have : max (0 : ℚ) ((v1 - lo) / (hi - lo)) < 1 := max_lt one_pos hnot1
    calc max (0 : ℚ) ((v1 - lo) / (hi - lo)) < 1 := this
    _ ≤ max 0 1 := le_max_right 0 1

/-- Witness for C7 (amended): bounds [0, 10], values 2 < 5, neither clamped. -/
theorem c7_normalized_monotone_witness :
    clampedNorm 2 0 10 < clampedNorm 5 0 10 :=
  c7_normalized_monotone_amended 0 10 2 5 (by norm_num) (by norm_num)
    (by norm_num) (by norm_num)

/-- C10: for every non-negative cluster id and any opacity, the cluster-color
lookup is total (returns a defined RGBA quadruple, never an out-of-bounds
access), its alpha byte lies in `[0, 255]` when the opacity is in `[0, 1]`,
and colors repeat cyclically with period 10 (the palette length). -/
theorem c10_cluster_color_total_cyclic (clusterId : ℕ) (alpha : ℚ)
    (h0 : 0 ≤ alpha) (h1 : alpha ≤ 1) :
    (∃ c, getClusterColorRGBA clusterId alpha = some c ∧
      0 ≤ c.2.2.2 ∧ c.2.2.2 ≤ 255) ∧
    getClusterColorRGBA (clusterId + 10) alpha = getClusterColorRGBA clusterId alpha := by
  have hlen : CLUSTER_COLORS.length = 10 := rfl
  have hlt : clusterId % CLUSTER_COLORS.length < CLUSTER_COLORS.length := by
    refine Nat.mod_lt _ ?_
    simp [hlen]
  constructor
  · have hc : CLUSTER_COLORS.get? (clusterId % CLUSTER_COLORS.length) =
        some (CLUSTER_COLORS.get ⟨clusterId % CLUSTER_COLORS.length, hlt⟩) :=
      List.get?_eq_get hlt
    set c := CLUSTER_COLORS.get ⟨clusterId % CLUSTER_COLORS.length, hlt⟩ with hcdef
    refine ⟨(c.1, c.2.1, c.2.2, ⌊alpha * 255⌋), ?_, ?_, ?_⟩
    · rw [getClusterColorRGBA, hc]; rfl
    · have : (0 : ℚ) ≤ alpha * 255 := by positivity
      simpa using Int.floor_nonneg.mpr this
    · have h255 : alpha * 255 ≤ 255 := by nlinarith
      have : (⌊alpha * 255⌋ : ℤ) ≤ ⌊(255 : ℚ)⌋ := Int.floor_le_floor h255
      simpa using this
  · have : (clusterId + 10) % CLUSTER_COLORS.length = clusterId % CLUSTER_COLORS.length := by
      simp [hlen]
    simp [getClusterColorRGBA, this]

/-- Witness for C10 at cluster id 12 (≥ 10) and opacity 1/2. -/
theorem c10_cluster_color_witness :
    (0 : ℚ) ≤ 1 / 2 ∧ (1 / 2 : ℚ) ≤ 1 ∧
    ((∃ c, getClusterColorRGBA 12 (1 / 2) = some c ∧ 0 ≤ c.2.2.2 ∧ c.2.2.2 ≤ 255) ∧
      getClusterColorRGBA (12 + 10) (1 / 2) = getClusterColorRGBA 12 (1 / 2)) :=
  ⟨by norm_num, by norm_num,
    c10_cluster_color_total_cyclic 12 (1 / 2) (by norm_num) (by norm_num)⟩

/-- C5: the percentile-slider handler never stores `low ≥ high`: from a state
with `low < high`, any update keeps the ordering, and an update that violates
the ordering leaves the stored settings unchanged (not clamped or swapped). -/
theorem c5_percentile_ordering (cur : ℚ × ℚ) (hcur : cur.1 < cur.2)
    (low high : ℚ) :
    (percentileUpdate cur low high).1 < (percentileUpdate cur low high).2 ∧
    (¬ low < high → percentileUpdate cur low high = cur) := by
  unfold percentileUpdate
  by_cases h : low < high <;> simp [h, hcur]

/-- Witness for C5: stored `(5, 95)`, attempted update `(96, 10)` is ignored. -/
theorem c5_percentile_ordering_witness :
    ((5 : ℚ), (95 : ℚ)).1 < ((5 : ℚ), (95 : ℚ)).2 ∧
    (percentileUpdate (5, 95) 96 10).1 < (percentileUpdate (5, 95) 96 10).2 ∧
    percentileUpdate (5, 95) 96 10 = (5, 95) := by
  have h := c5_percentile_ordering (5, 95) (by norm_num) 96 10
  exact ⟨by norm_num, h.1, h.2 (by norm_num)⟩

end SCE
